import Mathlib

set_option maxHeartbeats 1600000

/-!
Shallow embedding of the Axon MLService orchestration core
(`src/packages/server/src/mL/index.ts`).

The service's in-memory state (`trainer_state`, the per-project `status`
table) and the PseudoDatabase project store are embedded as explicit state.
External collaborators (Docker, Trainer, Exporter, Tester, PseudoDatabase)
are not part of the excerpt; their calls are driven by environment records
whose fields decide whether each awaited call succeeds and what effect it
has, and their store-level effects are modelled from the spec where noted.
Each operation returns an `Outcome`, the successor state, and a trace of
the externally visible actions it performed, in order.
-/

/-- Readiness states of the service, mirroring the `TrainerState` enum. -/
inductive TrainerState
  | NO_DOCKER_INSTALLED
  | SCANNING_FOR_DOCKER
  | SCANNING_PROJECTS
  | DATASET_PULL
  | METRICS_PULL
  | TRAINER_PULL
  | EXPORT_PULL
  | TEST_PULL
  | READY
deriving DecidableEq, Repr

/-- Per-project training status, mirroring the `TrainingStatus` enum. -/
inductive TrainingStatus
  | NOT_TRAINING
  | PREPARING
  | TRAINING
  | PAUSED
deriving DecidableEq, Repr

def DATASET_IMAGE : String := "gcperkins/wpilib-ml-dataset:latest"
def METRICS_IMAGE : String := "gcperkins/wpilib-ml-metrics:latest"
def EXPORT_IMAGE : String := "gcperkins/wpilib-ml-tflite:latest"
def TRAIN_IMAGE : String := "gcperkins/wpilib-ml-train:latest"
def TEST_IMAGE : String := "gcperkins/wpilib-ml-test:latest"

structure Hyperparameters where
  epochs : Nat
deriving DecidableEq, Repr

/-- The `containerIDs` record on a project; only the `train` role is used
by the orchestration core.  `none` models the TS `null`. -/
structure ContainerIDs where
  train : Option String
deriving DecidableEq, Repr

/-- Export record (the TS `Export` type); only its name is tracked here. -/
structure ExportRecord where
  name : String
deriving DecidableEq, Repr

/-- A project's status record in the service's `status` table. -/
structure ProjectStatus where
  trainingStatus : TrainingStatus
  currentEpoch : Nat
  lastEpoch : Nat
deriving DecidableEq, Repr

/-- A project record as held by the PseudoDatabase.  `checkpoints` maps a
checkpoint step to its in-use-by-export flag; `exports`, `videos`, `tests`
hold persisted records (contents irrelevant to the orchestration core). -/
structure ProjectData where
  id : String
  hyperparameters : Hyperparameters
  containerIDs : ContainerIDs
  directory : String
  checkpoints : List (Nat × Bool)
  exports : List ExportRecord
  videos : List String
  tests : List String
deriving DecidableEq, Repr

/-- Association-list lookup (first match), modelling access to a JS object
keyed by strings (or to the checkpoint map keyed by numbers). -/
def lookupKey {κ β : Type} [DecidableEq κ] : List (κ × β) → κ → Option β
  | [], _ => none
  | kv :: rest, k => if kv.1 = k then some kv.2 else lookupKey rest k

/-- Association-list update: replaces the first binding of `k` in place, or
appends a new binding, modelling `obj[k] = v` on a JS object. -/
def setKey {κ β : Type} [DecidableEq κ] : List (κ × β) → κ → β → List (κ × β)
  | [], k, v => [(k, v)]
  | kv :: rest, k, v => if kv.1 = k then (k, v) :: rest else kv :: setKey rest k v

@[simp] theorem lookupKey_nil {κ β : Type} [DecidableEq κ] (k : κ) :
    lookupKey ([] : List (κ × β)) k = none := rfl

@[simp] theorem lookupKey_setKey_self {κ β : Type} [DecidableEq κ]
    (l : List (κ × β)) (k : κ) (v : β) : lookupKey (setKey l k v) k = some v := by
  induction l with
  | nil => simp [setKey, lookupKey]
  | cons kv rest ih =>
    by_cases h : kv.1 = k
    · simp [setKey, h, lookupKey]
    · simp [setKey, h, lookupKey, ih]

theorem lookupKey_setKey_ne {κ β : Type} [DecidableEq κ]
    (l : List (κ × β)) (k k' : κ) (v : β) (h : k' ≠ k) :
    lookupKey (setKey l k v) k' = lookupKey l k' := by
  induction l with
  | nil => simp [setKey, lookupKey, Ne.symm h]
  | cons kv rest ih =>
    by_cases hk : kv.1 = k
    · subst hk
      simp [setKey, lookupKey, Ne.symm h]
    · simp only [setKey, if_neg hk, lookupKey]
      by_cases hk' : kv.1 = k'
      · simp [hk']
      · simp [hk', ih]

/-- Replacing a binding with the value it already has is a no-op. -/
theorem setKey_lookup_self {κ β : Type} [DecidableEq κ]
    (l : List (κ × β)) (k : κ) (v : β) (h : lookupKey l k = some v) :
    setKey l k v = l := by
  induction l with
  | nil => simp [lookupKey] at h
  | cons kv rest ih =>
    by_cases hk : kv.1 = k
    · simp only [lookupKey, if_pos hk] at h
      cases h
      simp only [setKey, if_pos hk]
      congr 1
      exact Prod.ext_iff.mpr ⟨hk.symm, rfl⟩
    · simp only [lookupKey, if_neg hk] at h
      simp [setKey, hk, ih h]

theorem setKey_setKey {κ β : Type} [DecidableEq κ]
    (l : List (κ × β)) (k : κ) (v w : β) :
    setKey (setKey l k v) k w = setKey l k w := by
  induction l with
  | nil => simp [setKey]
  | cons kv rest ih =>
    by_cases hk : kv.1 = k
    · simp [setKey, hk]
    · simp [setKey, hk, ih]

theorem lookupKey_mem {κ β : Type} [DecidableEq κ]
    {l : List (κ × β)} {k : κ} {v : β} (h : lookupKey l k = some v) :
    (k, v) ∈ l := by
  induction l with
  | nil => simp [lookupKey] at h
  | cons kv rest ih =>
    by_cases hk : kv.1 = k
    · simp only [lookupKey, if_pos hk] at h
      cases h
      have he : (k, kv.2) = kv := Prod.ext_iff.mpr ⟨hk.symm, rfl⟩
      rw [he]
      exact List.mem_cons_self kv rest
    · simp only [lookupKey, if_neg hk] at h
      exact List.mem_cons_of_mem _ (ih h)

/-- Keys of an association list are pairwise distinct (JS objects have
unique keys). -/
def keysNodupB {β : Type} : List (String × β) → Bool
  | [] => true
  | kv :: rest => (rest.all fun kv' => !(kv'.1 == kv.1)) && keysNodupB rest

theorem lookupKey_of_mem_keysNodup {β : Type}
    {l : List (String × β)} {k : String} {v : β}
    (hnd : keysNodupB l = true) (h : (k, v) ∈ l) :
    lookupKey l k = some v := by
  induction l with
  | nil => simp at h
  | cons kv rest ih =>
    simp only [keysNodupB, Bool.and_eq_true, List.all_eq_true] at hnd
    rcases List.mem_cons.mp h with h1 | h2
    · subst h1
      simp [lookupKey]
    · have hne : kv.1 ≠ k := by
        intro he
        have := hnd.1 _ h2
        simp [he] at this
      simp [lookupKey, hne, ih hnd.2 h2]

abbrev Store := List (String × ProjectData)
abbrev ProjectStati := List (String × ProjectStatus)

/-- In-memory state of one `MLService` instance together with the
PseudoDatabase it talks to. -/
structure ServiceState where
  trainer_state : TrainerState
  status : ProjectStati
  store : Store
deriving DecidableEq, Repr

/-- Externally visible actions, recorded in order of execution. -/
inductive Event
  | stateSet (st : TrainerState)
  | pullImage (img : String)
  | statusSet (id : String) (st : TrainingStatus)
  | stepSet (id : String) (n : Nat)
  | lastStepSet (id : String) (n : Nat)
  | killContainer (c : String)
  | pauseContainer (c : String)
  | resumeContainer (c : String)
  | trainerStep (name : String)
  | projectPushed (id : String)
  | exporterStep (name : String)
  | markSet (b : Bool)
  | runExportContainer
  | exportSaved
  | testerStep (name : String)
deriving DecidableEq, Repr

/-- Result of an awaited service call: fulfilled, rejected with a reason
string, or crashed with a TypeError (a field access on `undefined`). -/
inductive Outcome (α : Type)
  | ok (a : α)
  | rejected (msg : String)
  | crashed
deriving DecidableEq, Repr

/-- One completed run of a service method: its outcome, the state it
leaves behind, and the ordered trace of actions it performed. -/
structure MLRun (α : Type) where
  result : Outcome α
  state : ServiceState
  trace : List Event
deriving Repr

/-- Behaviour of the Docker adapter during a run: the liveness probe and
whether each pull/kill/pause/resume call succeeds. -/
structure DockerEnv where
  testDaemon : Bool
  pullOk : String → Bool
  killOk : String → Bool
  pauseOk : String → Bool
  resumeOk : String → Bool

/-- Behaviour of the Trainer collaborator during a run.  Modelled from the
spec: each stage step reads the project record, does its work (possibly
updating the record in the store) and either completes or fails (`none`).
`updateCheckpoints` additionally reports the latest completed epoch
(`none` models a JS `undefined` return). -/
structure TrainerEnv where
  writeParameterFile : ProjectData → Option ProjectData
  handleOldData : ProjectData → Option ProjectData
  moveDataToMount : ProjectData → Option ProjectData
  extractDataset : ProjectData → Option ProjectData
  trainModel : ProjectData → Option ProjectData
  updateCheckpoints : ProjectData → Option (ProjectData × Option Nat)

/-- Behaviour of the Exporter collaborator: whether each awaited step
succeeds.  `updateCheckpointStatusOk` is indexed by the flag being set. -/
structure ExporterEnv where
  createExportOk : Bool
  createDestinationDirectoryOk : Bool
  updateCheckpointStatusOk : Bool → Bool
  writeParameterFileOk : Bool
  exportCheckpointOk : Bool
  saveExportOk : Bool

/-- Behaviour of the Tester collaborator: whether each awaited step
succeeds. -/
structure TesterEnv where
  createTestOk : Bool
  mountModelOk : Bool
  mountVideoOk : Bool
  writeParameterFileOk : Bool
  testModelOk : Bool
  saveOutputVidOk : Bool
  saveTestOk : Bool

/-- JS truthiness of a `string | null` value: `null` and the empty string
are falsy. -/
def truthy : Option String → Bool
  | none => false
  | some s => !(s == "")

/-- Field assignment `this.status[id].field = v`: reads the record (a
TypeError — `none` — if it is absent) and mutates the field. -/
def updateField (tbl : ProjectStati) (id : String) (f : ProjectStatus → ProjectStatus) :
    Option ProjectStati :=
  match lookupKey tbl id with
  | none => none
  | some r => some (setKey tbl id (f r))

/-- Modelled from the spec: a Trainer stage step (the Trainer collaborator
is not part of the excerpt).  It acts on the project record it retrieves
by id from the PseudoDatabase — the same record the service aliases — and
leaves the possibly updated record in the store; `none` propagates the
step's failure (or a missing project). -/
def runTrainerStep (step : ProjectData → Option ProjectData) (id : String) (st : Store) :
    Option Store :=
  match lookupKey st id with
  | none => none
  | some p =>
    match step p with
    | none => none
    | some q => some (setKey st id q)

namespace MLService

/-- `addStatus` from the source: seeds a fresh status record. -/
def addStatus (p : ProjectData) (tbl : ProjectStati) : ProjectStati :=
  setKey tbl p.id ⟨.NOT_TRAINING, 0, p.hyperparameters.epochs⟩

/-- `prepare` from the source: probe the daemon, seed a status record per
stored project, then pull the five images in order, moving
`trainer_state` immediately before each pull. -/
def prepare (env : DockerEnv) (s : ServiceState) : MLRun Unit :=
  if env.testDaemon = false then
    ⟨.ok (), { s with trainer_state := .NO_DOCKER_INSTALLED }, [.stateSet .NO_DOCKER_INSTALLED]⟩
  else
    let s1 : ServiceState :=
      { s with trainer_state := .SCANNING_PROJECTS,
               status := s.store.foldl (fun acc kv => addStatus kv.2 acc) s.status }
    let t1 : List Event :=
      [.stateSet .SCANNING_PROJECTS, .stateSet .DATASET_PULL, .pullImage DATASET_IMAGE]
    let s2 : ServiceState := { s1 with trainer_state := .DATASET_PULL }
    if env.pullOk DATASET_IMAGE = false then ⟨.rejected "pull failed", s2, t1⟩ else
    let t2 := t1 ++ [.stateSet .METRICS_PULL, .pullImage METRICS_IMAGE]
    let s3 : ServiceState := { s2 with trainer_state := .METRICS_PULL }
    if env.pullOk METRICS_IMAGE = false then ⟨.rejected "pull failed", s3, t2⟩ else
    let t3 := t2 ++ [.stateSet .TRAINER_PULL, .pullImage TRAIN_IMAGE]
    let s4 : ServiceState := { s3 with trainer_state := .TRAINER_PULL }
    if env.pullOk TRAIN_IMAGE = false then ⟨.rejected "pull failed", s4, t3⟩ else
    let t4 := t3 ++ [.stateSet .EXPORT_PULL, .pullImage EXPORT_IMAGE]
    let s5 : ServiceState := { s4 with trainer_state := .EXPORT_PULL }
    if env.pullOk EXPORT_IMAGE = false then ⟨.rejected "pull failed", s5, t4⟩ else
    let t5 := t4 ++ [.stateSet .TEST_PULL, .pullImage TEST_IMAGE]
    let s6 : ServiceState := { s5 with trainer_state := .TEST_PULL }
    if env.pullOk TEST_IMAGE = false then ⟨.rejected "pull failed", s6, t5⟩ else
    ⟨.ok (), { s6 with trainer_state := .READY }, t5 ++ [.stateSet .READY]⟩

/-- The constructor followed by its `prepare()` call: `trainer_state`
starts at `SCANNING_FOR_DOCKER`, the status table starts empty. -/
def boot (env : DockerEnv) (db : Store) : MLRun Unit :=
  let r := prepare env { trainer_state := .SCANNING_FOR_DOCKER, status := [], store := db }
  ⟨r.result, r.state, .stateSet .SCANNING_FOR_DOCKER :: r.trace⟩

/-- `start` from the source: re-fetch the project, run the preparation
steps, launch training, reconcile checkpoints, then mark the run finished,
clear the cached training-container handle and persist the record. -/
def start (env : TrainerEnv) (iproject : ProjectData) (s : ServiceState) : MLRun String :=
  match lookupKey s.store iproject.id with
  | none => ⟨.rejected "project not found", s, []⟩
  | some project =>
    match updateField s.status project.id
        (fun r => { r with lastEpoch := project.hyperparameters.epochs }) with
    | none => ⟨.crashed, s, []⟩
    | some st1 =>
      let tr1 : List Event := [.lastStepSet project.id project.hyperparameters.epochs]
      match updateField st1 project.id (fun r => { r with trainingStatus := .PREPARING }) with
      | none => ⟨.crashed, { s with status := st1 }, tr1⟩
      | some st2 =>
        let s2 : ServiceState := { s with status := st2 }
        let tr2 := tr1 ++ [.statusSet project.id .PREPARING]
        match runTrainerStep env.writeParameterFile project.id s2.store with
        | none => ⟨.rejected "writeParameterFile failed", s2, tr2⟩
        | some store1 =>
          let tr3 := tr2 ++ [.trainerStep "writeParameterFile"]
          match runTrainerStep env.handleOldData project.id store1 with
          | none => ⟨.rejected "handleOldData failed", { s2 with store := store1 }, tr3⟩
          | some store2 =>
            let tr4 := tr3 ++ [.trainerStep "handleOldData"]
            match runTrainerStep env.moveDataToMount project.id store2 with
            | none => ⟨.rejected "moveDataToMount failed", { s2 with store := store2 }, tr4⟩
            | some store3 =>
              let tr5 := tr4 ++ [.trainerStep "moveDataToMount"]
              match runTrainerStep env.extractDataset project.id store3 with
              | none => ⟨.rejected "extractDataset failed", { s2 with store := store3 }, tr5⟩
              | some store4 =>
                let tr6 := tr5 ++ [.trainerStep "extractDataset"]
                match updateField st2 project.id (fun r => { r with trainingStatus := .TRAINING }) with
                | none => ⟨.crashed, { s2 with store := store4 }, tr6⟩
                | some st3 =>
                  let tr7 := tr6 ++ [.statusSet project.id .TRAINING]
                  match updateField st3 project.id (fun r => { r with currentEpoch := 0 }) with
                  | none => ⟨.crashed, { s with status := st3, store := store4 }, tr7⟩
                  | some st4 =>
                    let s4 : ServiceState := { s with status := st4, store := store4 }
                    let tr8 := tr7 ++ [.stepSet project.id 0]
                    match runTrainerStep env.trainModel project.id s4.store with
                    | none => ⟨.rejected "trainModel failed", s4, tr8⟩
                    | some store5 =>
                      let tr9 := tr8 ++ [.trainerStep "trainModel"]
                      match lookupKey store5 project.id with
                      | none => ⟨.rejected "updateCheckpoints failed", { s4 with store := store5 }, tr9⟩
                      | some p5 =>
                        match env.updateCheckpoints p5 with
                        | none => ⟨.rejected "updateCheckpoints failed", { s4 with store := store5 }, tr9⟩
                        | some (p6, _) =>
                          let store6 := setKey store5 project.id p6
                          let tr10 := tr9 ++ [.trainerStep "updateCheckpoints"]
                          match updateField st4 project.id (fun r => { r with trainingStatus := .NOT_TRAINING }) with
                          | none => ⟨.crashed, { s with status := st4, store := store6 }, tr10⟩
                          | some st5 =>
                            let pf := (lookupKey store6 project.id).getD project
                            let cleared : ProjectData :=
                              { pf with containerIDs := { pf.containerIDs with train := none } }
                            let store7 := setKey store6 cleared.id cleared
                            ⟨.ok "training complete",
                             { s with status := st5, store := store7 },
                             tr10 ++ [.statusSet project.id .NOT_TRAINING, .projectPushed cleared.id]⟩

/-- `halt` from the source: fetch the project; if `containerIDs.train` is
truthy, kill it and mark the project `NOT_TRAINING` (the stored handle is
not cleared); otherwise reject.  An empty-string handle is falsy in JS. -/
def halt (env : DockerEnv) (id : String) (s : ServiceState) : MLRun Unit :=
  match lookupKey s.store id with
  | none => ⟨.rejected "project not found", s, []⟩
  | some project =>
    match project.containerIDs.train with
    | none => ⟨.rejected "no trainjob found", s, []⟩
    | some c =>
      if c = "" then ⟨.rejected "no trainjob found", s, []⟩
      else if env.killOk c = false then ⟨.rejected "docker error", s, [.killContainer c]⟩
      else
        match updateField s.status project.id (fun r => { r with trainingStatus := .NOT_TRAINING }) with
        | none => ⟨.crashed, s, [.killContainer c]⟩
        | some tbl =>
          ⟨.ok (), { s with status := tbl }, [.killContainer c, .statusSet project.id .NOT_TRAINING]⟩

/-- `pauseTraining` from the source.  Note the status record is read
before either rejection check runs. -/
def pauseTraining (env : DockerEnv) (id : String) (s : ServiceState) : MLRun Unit :=
  match lookupKey s.store id with
  | none => ⟨.rejected "project not found", s, []⟩
  | some project =>
    match lookupKey s.status id with
    | none => ⟨.crashed, s, []⟩
    | some r =>
      if r.trainingStatus = .PAUSED then ⟨.rejected "training is already paused", s, []⟩
      else
        match project.containerIDs.train with
        | none => ⟨.rejected "no trainjob found", s, []⟩
        | some c =>
          if env.pauseOk c = false then ⟨.rejected "docker error", s, [.pauseContainer c]⟩
          else
            match updateField s.status project.id (fun r' => { r' with trainingStatus := .PAUSED }) with
            | none => ⟨.crashed, s, [.pauseContainer c]⟩
            | some tbl =>
              ⟨.ok (), { s with status := tbl }, [.pauseContainer c, .statusSet project.id .PAUSED]⟩

/-- `resumeTraining` from the source.  Note the status record is read
before either rejection check runs. -/
def resumeTraining (env : DockerEnv) (id : String) (s : ServiceState) : MLRun Unit :=
  match lookupKey s.store id with
  | none => ⟨.rejected "project not found", s, []⟩
  | some project =>
    match lookupKey s.status id with
    | none => ⟨.crashed, s, []⟩
    | some r =>
      if r.trainingStatus ≠ .PAUSED then ⟨.rejected "training is not paused", s, []⟩
      else
        match project.containerIDs.train with
        | none => ⟨.rejected "no trainjob found", s, []⟩
        | some c =>
          if env.resumeOk c = false then ⟨.rejected "docker error", s, [.resumeContainer c]⟩
          else
            match updateField s.status project.id (fun r' => { r' with trainingStatus := .TRAINING }) with
            | none => ⟨.crashed, s, [.resumeContainer c]⟩
            | some tbl =>
              ⟨.ok (), { s with status := tbl }, [.resumeContainer c, .statusSet project.id .TRAINING]⟩

/-- `updateCheckpoints` from the source: ask the Trainer to reconcile and
report the latest completed epoch; if the report is truthy (non-zero,
defined), advance `currentEpoch` to it. -/
def updateCheckpoints (env : TrainerEnv) (id : String) (s : ServiceState) : MLRun Unit :=
  match lookupKey s.store id with
  | none => ⟨.rejected "project not found", s, []⟩
  | some p =>
    match env.updateCheckpoints p with
    | none => ⟨.rejected "updateCheckpoints failed", s, []⟩
    | some (q, currentStep) =>
      let s1 : ServiceState := { s with store := setKey s.store id q }
      match currentStep with
      | none => ⟨.ok (), s1, [.trainerStep "updateCheckpoints"]⟩
      | some n =>
        if n = 0 then ⟨.ok (), s1, [.trainerStep "updateCheckpoints"]⟩
        else
          match updateField s1.status id (fun r => { r with currentEpoch := n }) with
          | none => ⟨.crashed, s1, [.trainerStep "updateCheckpoints"]⟩
          | some tbl =>
            ⟨.ok (), { s1 with status := tbl }, [.trainerStep "updateCheckpoints", .stepSet id n]⟩

end MLService

/-- Modelled from the spec: `Exporter.updateCheckpointStatus` sets the
source checkpoint's in-use-by-export flag on the stored project record. -/
def markCheckpoint (s : ServiceState) (id : String) (n : Nat) (b : Bool) : ServiceState :=
  match lookupKey s.store id with
  | none => s
  | some p =>
    { s with store := setKey s.store id { p with checkpoints := setKey p.checkpoints n b } }

/-- Modelled from the spec: `Exporter.saveExport` persists the export
record against the project. -/
def saveExportRec (s : ServiceState) (id : String) (exp : ExportRecord) : ServiceState :=
  match lookupKey s.store id with
  | none => s
  | some p => { s with store := setKey s.store id { p with exports := p.exports ++ [exp] } }

/-- The in-use flag currently stored for checkpoint `n` of project `id`. -/
def checkpointInUse (s : ServiceState) (id : String) (n : Nat) : Option Bool :=
  match lookupKey s.store id with
  | none => none
  | some p => lookupKey p.checkpoints n

namespace MLService

/-- The `export` method from the source (named `exportPipeline` here since
`export` is a Lean keyword): locate the checkpoint, create the export
record and its directory, set the in-use mark, write parameters, run the
conversion container, persist the export, clear the mark. -/
def exportPipeline (env : ExporterEnv) (id : String) (checkpointNumber : Nat)
    (name : String) (s : ServiceState) : MLRun String :=
  match lookupKey s.store id with
  | none => ⟨.rejected "checkpoint not found", s, []⟩
  | some p =>
    match lookupKey p.checkpoints checkpointNumber with
    | none => ⟨.rejected "checkpoint not found", s, []⟩
    | some _ =>
      let tr0 : List Event := [.exporterStep "locateCheckpoint"]
      if env.createExportOk = false then ⟨.rejected "createExport failed", s, tr0⟩ else
      let exp : ExportRecord := ⟨name⟩
      let tr1 := tr0 ++ [.exporterStep "createExport"]
      if env.createDestinationDirectoryOk = false then
        ⟨.rejected "createDestinationDirectory failed", s, tr1⟩ else
      let tr2 := tr1 ++ [.exporterStep "createDestinationDirectory"]
      if env.updateCheckpointStatusOk true = false then
        ⟨.rejected "updateCheckpointStatus failed", s, tr2⟩ else
      let s1 := markCheckpoint s id checkpointNumber true
      let tr3 := tr2 ++ [.markSet true]
      if env.writeParameterFileOk = false then ⟨.rejected "writeParameterFile failed", s1, tr3⟩ else
      let tr4 := tr3 ++ [.exporterStep "writeParameterFile"]
      if env.exportCheckpointOk = false then ⟨.rejected "exportCheckpoint failed", s1, tr4⟩ else
      let tr5 := tr4 ++ [.runExportContainer]
      if env.saveExportOk = false then ⟨.rejected "saveExport failed", s1, tr5⟩ else
      let s2 := saveExportRec s1 id exp
      let tr6 := tr5 ++ [.exportSaved]
      if env.updateCheckpointStatusOk false = false then
        ⟨.rejected "updateCheckpointStatus failed", s2, tr6⟩ else
      ⟨.ok "exported", markCheckpoint s2 id checkpointNumber false, tr6 ++ [.markSet false]⟩

/-- The `test` method from the source: create the test record, fetch the
project, mount the model and video, write parameters, run the test
container, persist the output video and the test record.  The status
table is never touched. -/
def test (env : TesterEnv) (testName projectID exportID videoID : String)
    (s : ServiceState) : MLRun String :=
  if env.createTestOk = false then ⟨.rejected "createTest failed", s, []⟩ else
  let tr0 : List Event := [.testerStep "createTest"]
  match lookupKey s.store projectID with
  | none => ⟨.rejected "project not found", s, tr0⟩
  | some project =>
    if env.mountModelOk = false then ⟨.rejected "mountModel failed", s, tr0⟩ else
    let tr1 := tr0 ++ [.testerStep "mountModel"]
    if env.mountVideoOk = false then ⟨.rejected "mountVideo failed", s, tr1⟩ else
    let tr2 := tr1 ++ [.testerStep "mountVideo"]
    if env.writeParameterFileOk = false then ⟨.rejected "writeParameterFile failed", s, tr2⟩ else
    let tr3 := tr2 ++ [.testerStep "writeParameterFile"]
    if env.testModelOk = false then ⟨.rejected "testModel failed", s, tr3⟩ else
    let tr4 := tr3 ++ [.testerStep "testModel"]
    if env.saveOutputVidOk = false then ⟨.rejected "saveOutputVid failed", s, tr4⟩ else
    let p1 : ProjectData := { project with videos := project.videos ++ [videoID] }
    let s1 : ServiceState := { s with store := setKey s.store projectID p1 }
    let tr5 := tr4 ++ [.testerStep "saveOutputVid"]
    if env.saveTestOk = false then ⟨.rejected "saveTest failed", s1, tr5⟩ else
    let s2 : ServiceState :=
      match lookupKey s1.store projectID with
      | none => s1
      | some q => { s1 with store := setKey s1.store projectID ({ q with tests := q.tests ++ [testName] }) }
    ⟨.ok "testing complete", s2, tr5 ++ [.testerStep "saveTest"]⟩

end MLService

/-- The spec's store-level invariant: a project's `containerIDs.train` is
set exactly when its status record says `TRAINING` or `PAUSED`. -/
def statusActiveB (tbl : ProjectStati) (k : String) : Bool :=
  match lookupKey tbl k with
  | none => false
  | some r => r.trainingStatus == .TRAINING || r.trainingStatus == .PAUSED

/-- Decidable form of the claimed invariant, over every project in the
store. -/
def invariantB (s : ServiceState) : Bool :=
  s.store.all fun kv => kv.2.containerIDs.train.isSome == statusActiveB s.status kv.1

/-- Store well-formedness: keys are unique and each record's `id` field
matches its key (PseudoDatabase keys projects by their own id). -/
def storeWFB (s : ServiceState) : Bool :=
  keysNodupB s.store && s.store.all fun kv => kv.2.id == kv.1

theorem storeWFB_nodup {s : ServiceState} (h : storeWFB s = true) :
    keysNodupB s.store = true := (Bool.and_eq_true _ _ |>.mp h).1

theorem storeWFB_id {s : ServiceState} {k : String} {p : ProjectData}
    (h : storeWFB s = true) (hm : (k, p) ∈ s.store) : p.id = k := by
  have := (Bool.and_eq_true _ _ |>.mp h).2
  have := List.all_eq_true.mp this (k, p) hm
  simpa using this

theorem storeWFB_id_of_lookup {s : ServiceState} {k : String} {p : ProjectData}
    (h : storeWFB s = true) (hl : lookupKey s.store k = some p) : p.id = k :=
  storeWFB_id h (lookupKey_mem hl)

/-- Overwriting a project's status record with an active status keeps the
invariant, provided that project's stored container handle is set. -/
theorem invariantB_setKey_active {s : ServiceState} {id : String} {p : ProjectData}
    (v : ProjectStatus)
    (hinv : invariantB s = true) (hwf : storeWFB s = true)
    (hp : lookupKey s.store id = some p)
    (htr : p.containerIDs.train.isSome = true)
    (hact : v.trainingStatus = .TRAINING ∨ v.trainingStatus = .PAUSED) :
    invariantB { s with status := setKey s.status id v } = true := by
  unfold invariantB at hinv ⊢
  rw [List.all_eq_true] at hinv ⊢
  intro kv hkv
  by_cases hk : kv.1 = id
  · have hlk : lookupKey s.store kv.1 = some kv.2 :=
      lookupKey_of_mem_keysNodup (storeWFB_nodup hwf) (by
        obtain ⟨a, b⟩ := kv
        exact hkv)
    rw [hk] at hlk
    have hpe : kv.2 = p := by
      rw [hlk] at hp
      exact (Option.some.inj hp).symm ▸ rfl
    have hactive : statusActiveB (setKey s.status id v) kv.1 = true := by
      unfold statusActiveB
      rw [hk, lookupKey_setKey_self]
      rcases hact with h | h <;> simp [h]
    rw [hactive, hpe, htr]
    rfl
  · have hsame : statusActiveB (setKey s.status id v) kv.1 = statusActiveB s.status kv.1 := by
      unfold statusActiveB
      rw [lookupKey_setKey_ne _ _ _ _ hk]
    rw [hsame]
    exact hinv kv hkv

/-- A Docker environment in which the daemon is up and every call
succeeds. -/
def envAllOk : DockerEnv :=
  { testDaemon := true, pullOk := fun _ => true, killOk := fun _ => true,
    pauseOk := fun _ => true, resumeOk := fun _ => true }

/-- A project mid-training run: container `c1` live, 50 epochs configured. -/
def projTraining : ProjectData :=
  { id := "p1", hyperparameters := ⟨50⟩, containerIDs := ⟨some "c1"⟩, directory := "/p1",
    checkpoints := [], exports := [], videos := [], tests := [] }

/-- A service state in which project `p1` is training in container `c1`. -/
def exTraining : ServiceState :=
  { trainer_state := .READY,
    status := [("p1", ⟨.TRAINING, 3, 50⟩)],
    store := [("p1", projTraining)] }

/-- C1 counterexample: the claimed invariant ("`containerIDs.train` is
non-empty iff `trainingStatus` is `TRAINING` or `PAUSED`, cleared exactly
when a run completes or is halted, preserved by every operation") is false
on the code: from a state satisfying it, a successful `halt` sets the
status to `NOT_TRAINING` but leaves `containerIDs.train` set in the store,
so the invariant fails afterwards. -/
theorem halt_violates_container_invariant :
    invariantB exTraining = true
    ∧ (MLService.halt envAllOk "p1" exTraining).result = .ok ()
    ∧ invariantB (MLService.halt envAllOk "p1" exTraining).state = false := by
  refine ⟨by decide, by decide, by decide⟩

/-- C4: for a stored project, `halt` rejects with "no trainjob found" when
the training-container handle is absent (leaving the state unchanged), and
with a live handle it kills exactly that container and sets the project's
`trainingStatus` to `NOT_TRAINING`. -/
theorem halt_spec (env : DockerEnv) (id : String) (s : ServiceState) (p : ProjectData)
    (hp : lookupKey s.store id = some p) (hpid : p.id = id) :
    (p.containerIDs.train = none →
      (MLService.halt env id s).result = .rejected "no trainjob found"
      ∧ (MLService.halt env id s).state = s)
    ∧ (∀ c, p.containerIDs.train = some c → c ≠ "" → env.killOk c = true →
        (lookupKey s.status id).isSome = true →
        (MLService.halt env id s).result = .ok ()
        ∧ .killContainer c ∈ (MLService.halt env id s).trace
        ∧ (lookupKey (MLService.halt env id s).state.status id).map (fun x => x.trainingStatus)
            = some .NOT_TRAINING) := by
  constructor
  · intro htr
    simp [MLService.halt, hp, htr]
  · intro c htr hc hkill hstat
    obtain ⟨r, hr⟩ := Option.isSome_iff_exists.mp hstat
    have hupd : updateField s.status p.id (fun x => { x with trainingStatus := .NOT_TRAINING }) =
        some (setKey s.status id ({ r with trainingStatus := .NOT_TRAINING })) := by
      simp [updateField, hpid, hr]
    have hrun : MLService.halt env id s =
        ⟨.ok (), { s with status := setKey s.status id ({ r with trainingStatus := .NOT_TRAINING }) },
         [.killContainer c, .statusSet p.id .NOT_TRAINING]⟩ := by
      simp [MLService.halt, hp, htr, hc, hkill, hupd]
    rw [hrun]
    exact ⟨rfl, by simp, by simp⟩

/-- C4 witness: halting project `p1` while container `c1` trains kills
`c1` and records `NOT_TRAINING`. -/
theorem halt_spec_witness :
    (MLService.halt envAllOk "p1" exTraining).result = .ok ()
    ∧ .killContainer "c1" ∈ (MLService.halt envAllOk "p1" exTraining).trace
    ∧ (lookupKey (MLService.halt envAllOk "p1" exTraining).state.status "p1").map
        (fun x => x.trainingStatus) = some .NOT_TRAINING :=
  (halt_spec envAllOk "p1" exTraining projTraining (by decide) rfl).2
    "c1" rfl (by decide) rfl rfl

/-- C5: for a stored project with a status record, `pauseTraining` rejects
with "training is already paused" when the status is `PAUSED`, rejects
with "no trainjob found" when no handle exists, each time leaving the
state unchanged; otherwise it pauses the container and sets the status to
`PAUSED`. -/
theorem pauseTraining_spec (env : DockerEnv) (id : String) (s : ServiceState)
    (p : ProjectData) (r : ProjectStatus)
    (hp : lookupKey s.store id = some p) (hpid : p.id = id)
    (hr : lookupKey s.status id = some r) :
    (r.trainingStatus = .PAUSED →
      (MLService.pauseTraining env id s).result = .rejected "training is already paused"
      ∧ (MLService.pauseTraining env id s).state = s)
    ∧ (r.trainingStatus ≠ .PAUSED → p.containerIDs.train = none →
      (MLService.pauseTraining env id s).result = .rejected "no trainjob found"
      ∧ (MLService.pauseTraining env id s).state = s)
    ∧ (∀ c, r.trainingStatus ≠ .PAUSED → p.containerIDs.train = some c →
        env.pauseOk c = true →
        (MLService.pauseTraining env id s).result = .ok ()
        ∧ .pauseContainer c ∈ (MLService.pauseTraining env id s).trace
        ∧ (lookupKey (MLService.pauseTraining env id s).state.status id).map
            (fun x => x.trainingStatus) = some .PAUSED) := by
  refine ⟨?_, ?_, ?_⟩
  · intro hps
    simp [MLService.pauseTraining, hp, hr, hps]
  · intro hps htr
    simp [MLService.pauseTraining, hp, hr, hps, htr]
  · intro c hps htr hok
    have hupd : updateField s.status p.id (fun x => { x with trainingStatus := .PAUSED }) =
        some (setKey s.status id ({ r with trainingStatus := .PAUSED })) := by
      simp [updateField, hpid, hr]
    have hrun : MLService.pauseTraining env id s =
        ⟨.ok (), { s with status := setKey s.status id ({ r with trainingStatus := .PAUSED }) },
         [.pauseContainer c, .statusSet p.id .PAUSED]⟩ := by
      simp [MLService.pauseTraining, hp, hr, hps, htr, hok, hupd]
    rw [hrun]
    exact ⟨rfl, by simp, by simp⟩

/-- C5 witness: pausing the training project `p1` succeeds, pauses `c1`
and records `PAUSED`. -/
theorem pauseTraining_spec_witness :
    (MLService.pauseTraining envAllOk "p1" exTraining).result = .ok ()
    ∧ .pauseContainer "c1" ∈ (MLService.pauseTraining envAllOk "p1" exTraining).trace
    ∧ (lookupKey (MLService.pauseTraining envAllOk "p1" exTraining).state.status "p1").map
        (fun x => x.trainingStatus) = some .PAUSED :=
  (pauseTraining_spec envAllOk "p1" exTraining projTraining ⟨.TRAINING, 3, 50⟩
    (by decide) rfl (by decide)).2.2 "c1" (by decide) rfl rfl

/-- A service state in which project `p1` is paused in container `c1`. -/
def exPaused : ServiceState :=
  { trainer_state := .READY,
    status := [("p1", ⟨.PAUSED, 3, 50⟩)],
    store := [("p1", projTraining)] }

/-- C6: for a stored project with a status record, `resumeTraining`
rejects with "training is not paused" when the status is not `PAUSED`
(in particular `NOT_TRAINING`), rejects with "no trainjob found" when no
handle exists, each time leaving the state unchanged; otherwise it resumes
the container and sets the status to `TRAINING`. -/
theorem resumeTraining_spec (env : DockerEnv) (id : String) (s : ServiceState)
    (p : ProjectData) (r : ProjectStatus)
    (hp : lookupKey s.store id = some p) (hpid : p.id = id)
    (hr : lookupKey s.status id = some r) :
    (r.trainingStatus ≠ .PAUSED →
      (MLService.resumeTraining env id s).result = .rejected "training is not paused"
      ∧ (MLService.resumeTraining env id s).state = s)
    ∧ (r.trainingStatus = .PAUSED → p.containerIDs.train = none →
      (MLService.resumeTraining env id s).result = .rejected "no trainjob found"
      ∧ (MLService.resumeTraining env id s).state = s)
    ∧ (∀ c, r.trainingStatus = .PAUSED → p.containerIDs.train = some c →
        env.resumeOk c = true →
        (MLService.resumeTraining env id s).result = .ok ()
        ∧ .resumeContainer c ∈ (MLService.resumeTraining env id s).trace
        ∧ (lookupKey (MLService.resumeTraining env id s).state.status id).map
            (fun x => x.trainingStatus) = some .TRAINING) := by
  refine ⟨?_, ?_, ?_⟩
  · intro hps
    simp [MLService.resumeTraining, hp, hr, hps]
  · intro hps htr
    simp [MLService.resumeTraining, hp, hr, hps, htr]
  · intro c hps htr hok
    have hupd : updateField s.status p.id (fun x => { x with trainingStatus := .TRAINING }) =
        some (setKey s.status id ({ r with trainingStatus := .TRAINING })) := by
      simp [updateField, hpid, hr]
    have hrun : MLService.resumeTraining env id s =
        ⟨.ok (), { s with status := setKey s.status id ({ r with trainingStatus := .TRAINING }) },
         [.resumeContainer c, .statusSet p.id .TRAINING]⟩ := by
      simp [MLService.resumeTraining, hp, hr, hps, htr, hok, hupd]
    rw [hrun]
    exact ⟨rfl, by simp, by simp⟩

/-- C6 witness: resuming the paused project `p1` succeeds, resumes `c1`
and records `TRAINING`; resuming a `NOT_TRAINING` project is rejected with
"training is not paused". -/
theorem resumeTraining_spec_witness :
    (MLService.resumeTraining envAllOk "p1" exPaused).result = .ok ()
    ∧ .resumeContainer "c1" ∈ (MLService.resumeTraining envAllOk "p1" exPaused).trace
    ∧ (lookupKey (MLService.resumeTraining envAllOk "p1" exPaused).state.status "p1").map
        (fun x => x.trainingStatus) = some .TRAINING :=
  (resumeTraining_spec envAllOk "p1" exPaused projTraining ⟨.PAUSED, 3, 50⟩
    (by decide) rfl (by decide)).2.2 "c1" rfl rfl rfl

/-- A state whose store knows project `p1` but whose status table has no
record for it (e.g. a start request never seeded one). -/
def exNoStatus : ServiceState :=
  { trainer_state := .READY, status := [], store := [("p1", projTraining)] }

/-- C10: when a stored project has no status record, `pauseTraining` and
`resumeTraining` crash on the status read before reaching their rejection
checks (whatever the container handle is), and `halt` with a live handle
kills the container and then crashes writing the missing record; with a
status record present none of the three can crash. -/
theorem missing_status_record_behavior (env : DockerEnv) (id : String) (s : ServiceState)
    (p : ProjectData) (hp : lookupKey s.store id = some p) (hpid : p.id = id) :
    (lookupKey s.status id = none →
      (MLService.pauseTraining env id s).result = .crashed
      ∧ (MLService.resumeTraining env id s).result = .crashed
      ∧ ∀ c, p.containerIDs.train = some c → c ≠ "" → env.killOk c = true →
          (MLService.halt env id s).result = .crashed
          ∧ .killContainer c ∈ (MLService.halt env id s).trace)
    ∧ ((lookupKey s.status id).isSome = true →
      (MLService.pauseTraining env id s).result ≠ .crashed
      ∧ (MLService.resumeTraining env id s).result ≠ .crashed
      ∧ (MLService.halt env id s).result ≠ .crashed) := by
  constructor
  · intro hr
    refine ⟨by simp [MLService.pauseTraining, hp, hr], by simp [MLService.resumeTraining, hp, hr], ?_⟩
    intro c htr hc hkill
    have hupd : updateField s.status p.id (fun x => { x with trainingStatus := .NOT_TRAINING }) = none := by
      simp [updateField, hpid, hr]
    constructor
    · simp [MLService.halt, hp, htr, hc, hkill, hupd]
    · simp [MLService.halt, hp, htr, hc, hkill, hupd]
  · intro hstat
    obtain ⟨r, hr⟩ := Option.isSome_iff_exists.mp hstat
    have hupdP : ∀ f, updateField s.status p.id f = some (setKey s.status id (f r)) := by
      intro f
      simp [updateField, hpid, hr]
    refine ⟨?_, ?_, ?_⟩
    · by_cases hps : r.trainingStatus = .PAUSED
      · simp [MLService.pauseTraining, hp, hr, hps]
      · cases htr : p.containerIDs.train with
        | none => simp [MLService.pauseTraining, hp, hr, hps, htr]
        | some c =>
          cases hok : env.pauseOk c with
          | false => simp [MLService.pauseTraining, hp, hr, hps, htr, hok]
          | true => simp [MLService.pauseTraining, hp, hr, hps, htr, hok, hupdP]
    · by_cases hps : r.trainingStatus = .PAUSED
      · cases htr : p.containerIDs.train with
        | none => simp [MLService.resumeTraining, hp, hr, hps, htr]
        | some c =>
          cases hok : env.resumeOk c with
          | false => simp [MLService.resumeTraining, hp, hr, hps, htr, hok]
          | true => simp [MLService.resumeTraining, hp, hr, hps, htr, hok, hupdP]
      · simp [MLService.resumeTraining, hp, hr, hps]
    · cases htr : p.containerIDs.train with
      | none => simp [MLService.halt, hp, htr]
      | some c =>
        by_cases hc : c = ""
        · simp [MLService.halt, hp, htr, hc]
        · cases hkill : env.killOk c with
          | false => simp [MLService.halt, hp, htr, hc, hkill]
          | true => simp [MLService.halt, hp, htr, hc, hkill, hupdP]

/-- C10 witness: with no status record for `p1`, pause and resume crash,
and halt kills `c1` and then crashes. -/
theorem missing_status_record_behavior_witness :
    (MLService.pauseTraining envAllOk "p1" exNoStatus).result = .crashed
    ∧ (MLService.halt envAllOk "p1" exNoStatus).result = .crashed
    ∧ .killContainer "c1" ∈ (MLService.halt envAllOk "p1" exNoStatus).trace := by
  have h := (missing_status_record_behavior envAllOk "p1" exNoStatus projTraining
    (by decide) rfl).1 rfl
  exact ⟨h.1, (h.2.2 "c1" rfl (by decide) rfl).1, (h.2.2 "c1" rfl (by decide) rfl).2⟩

/-- C8: if the Trainer reconciliation finds nothing new — it leaves the
project record unchanged and reports the same latest epoch `v` on each
call — then a second `updateCheckpoints` leaves the whole service state
(in particular `currentEpoch`) exactly as the first left it. -/
theorem updateCheckpoints_idempotent (env : TrainerEnv) (id : String) (s : ServiceState)
    (v : Option Nat) (henv : env.updateCheckpoints = fun p => some (p, v)) :
    (MLService.updateCheckpoints env id
        ((MLService.updateCheckpoints env id s).state)).state
      = (MLService.updateCheckpoints env id s).state := by
  cases hp : lookupKey s.store id with
  | none =>
    have h1 : (MLService.updateCheckpoints env id s).state = s := by
      simp [MLService.updateCheckpoints, hp]
    rw [h1, h1]
  | some p =>
    have hset : setKey s.store id p = s.store := setKey_lookup_self _ _ _ hp
    cases v with
    | none =>
      have h1 : (MLService.updateCheckpoints env id s).state = s := by
        simp [MLService.updateCheckpoints, hp, henv, hset]
      rw [h1, h1]
    | some n =>
      by_cases hn : n = 0
      · subst hn
        have h1 : (MLService.updateCheckpoints env id s).state = s := by
          simp [MLService.updateCheckpoints, hp, henv, hset]
        rw [h1, h1]
      · cases hr : lookupKey s.status id with
        | none =>
          have h1 : (MLService.updateCheckpoints env id s).state = s := by
            simp [MLService.updateCheckpoints, hp, henv, hset, hn, updateField, hr]
          rw [h1, h1]
        | some r =>
          have hupd : updateField s.status id (fun x => { x with currentEpoch := n }) =
              some (setKey s.status id ({ r with currentEpoch := n })) := by
            simp [updateField, hr]
          have h1 : (MLService.updateCheckpoints env id s).state =
              { s with status := setKey s.status id ({ r with currentEpoch := n }) } := by
            simp [MLService.updateCheckpoints, hp, henv, hset, hn, hupd]
          rw [h1]
          have hp2 : lookupKey ({ s with status := setKey s.status id ({ r with currentEpoch := n })} : ServiceState).store id = some p := hp
          have hr2 : lookupKey (setKey s.status id ({ r with currentEpoch := n })) id =
              some ({ r with currentEpoch := n }) := lookupKey_setKey_self _ _ _
          have hupd2 : updateField (setKey s.status id ({ r with currentEpoch := n })) id
              (fun x => { x with currentEpoch := n }) =
              some (setKey s.status id ({ r with currentEpoch := n })) := by
            simp [updateField, hr2, setKey_setKey]
          simp [MLService.updateCheckpoints, hp2, henv, hset, hn, hupd2]

/-- A Trainer environment whose steps all succeed without touching the
record and whose reconciliation always reports epoch 5. -/
def envReport5 : TrainerEnv :=
  { writeParameterFile := fun p => some p, handleOldData := fun p => some p,
    moveDataToMount := fun p => some p, extractDataset := fun p => some p,
    trainModel := fun p => some p, updateCheckpoints := fun p => some (p, some 5) }

/-- C8 witness: two reconciliations both reporting epoch 5 leave the state
of the first call unchanged. -/
theorem updateCheckpoints_idempotent_witness :
    (MLService.updateCheckpoints envReport5 "p1"
        ((MLService.updateCheckpoints envReport5 "p1" exTraining).state)).state
      = (MLService.updateCheckpoints envReport5 "p1" exTraining).state :=
  updateCheckpoints_idempotent envReport5 "p1" exTraining (some 5) rfl

/-- C9: the test pipeline never touches the per-project training-status
table: whatever the Tester collaborator does and whether any step fails,
the status table after `test` is exactly the one before. -/
theorem test_preserves_status_table (env : TesterEnv)
    (testName projectID exportID videoID : String) (s : ServiceState) :
    (MLService.test env testName projectID exportID videoID s).state.status = s.status := by
  cases h1 : env.createTestOk with
  | false => simp [MLService.test, h1]
  | true =>
    cases hp : lookupKey s.store projectID with
    | none => simp [MLService.test, h1, hp]
    | some project =>
      cases h2 : env.mountModelOk with
      | false => simp [MLService.test, h1, hp, h2]
      | true =>
        cases h3 : env.mountVideoOk with
        | false => simp [MLService.test, h1, hp, h2, h3]
        | true =>
          cases h4 : env.writeParameterFileOk with
          | false => simp [MLService.test, h1, hp, h2, h3, h4]
          | true =>
            cases h5 : env.testModelOk with
            | false => simp [MLService.test, h1, hp, h2, h3, h4, h5]
            | true =>
              cases h6 : env.saveOutputVidOk with
              | false => simp [MLService.test, h1, hp, h2, h3, h4, h5, h6]
              | true =>
                cases h7 : env.saveTestOk with
                | false => simp [MLService.test, h1, hp, h2, h3, h4, h5, h6, h7]
                | true => simp [MLService.test, h1, hp, h2, h3, h4, h5, h6, h7]

/-- The readiness states a trace reports having entered, in order. -/
def stateSeq (tr : List Event) : List TrainerState :=
  tr.filterMap fun e =>
    match e with
    | .stateSet st => some st
    | _ => none

def isPull : Event → Bool
  | .pullImage _ => true
  | _ => false

/-- The image the boot sequence pulls while in a given readiness state. -/
def imageFor : TrainerState → Option String
  | .DATASET_PULL => some DATASET_IMAGE
  | .METRICS_PULL => some METRICS_IMAGE
  | .TRAINER_PULL => some TRAIN_IMAGE
  | .EXPORT_PULL => some EXPORT_IMAGE
  | .TEST_PULL => some TEST_IMAGE
  | _ => none

/-- Every pull event in the trace is immediately preceded by the event
entering that pull's readiness state. -/
def pullsPaired : List Event → Bool
  | .pullImage _ :: _ => false
  | .stateSet st :: .pullImage img :: rest => (imageFor st == some img) && pullsPaired rest
  | _ :: rest => pullsPaired rest
  | [] => true

/-- The documented order of boot readiness states on a fully successful
boot. -/
def bootStates : List TrainerState :=
  [.SCANNING_FOR_DOCKER, .SCANNING_PROJECTS, .DATASET_PULL, .METRICS_PULL,
   .TRAINER_PULL, .EXPORT_PULL, .TEST_PULL, .READY]

/-- C3: in every boot, if the daemon probe fails the readiness state is
`NO_DOCKER_INSTALLED` and no pull is attempted; otherwise the sequence of
states entered is an initial segment of the documented order (so no state
is skipped, repeated, or revisited), every pull is immediately preceded by
entering its state, and when all five pulls succeed the full order is
traversed, ending `READY`. -/
theorem boot_readiness_sequence (env : DockerEnv) (db : Store) :
    (env.testDaemon = false →
      (MLService.boot env db).state.trainer_state = .NO_DOCKER_INSTALLED
      ∧ ∀ e ∈ (MLService.boot env db).trace, isPull e = false)
    ∧ (env.testDaemon = true →
      (∃ t, stateSeq (MLService.boot env db).trace ++ t = bootStates)
      ∧ pullsPaired (MLService.boot env db).trace = true
      ∧ (env.pullOk DATASET_IMAGE = true → env.pullOk METRICS_IMAGE = true →
         env.pullOk TRAIN_IMAGE = true → env.pullOk EXPORT_IMAGE = true →
         env.pullOk TEST_IMAGE = true →
         stateSeq (MLService.boot env db).trace = bootStates
         ∧ (MLService.boot env db).state.trainer_state = .READY)) := by
  cases hd : env.testDaemon with
  | false =>
    constructor
    · intro _
      have ht : (MLService.boot env db).trace =
          [.stateSet .SCANNING_FOR_DOCKER, .stateSet .NO_DOCKER_INSTALLED] := by
        simp [MLService.boot, MLService.prepare, hd]
      have hs : (MLService.boot env db).state.trainer_state = .NO_DOCKER_INSTALLED := by
        simp [MLService.boot, MLService.prepare, hd]
      refine ⟨hs, ?_⟩
      rw [ht]
      decide
    · intro htrue
      exact absurd htrue (by simp)
  | true =>
    constructor
    · intro hfalse
      exact absurd hfalse (by simp)
    · intro _
      cases h1 : env.pullOk DATASET_IMAGE with
      | false =>
        have ht : (MLService.boot env db).trace =
            [.stateSet .SCANNING_FOR_DOCKER, .stateSet .SCANNING_PROJECTS,
             .stateSet .DATASET_PULL, .pullImage DATASET_IMAGE] := by
          simp [MLService.boot, MLService.prepare, hd, h1]
        refine ⟨⟨[.METRICS_PULL, .TRAINER_PULL, .EXPORT_PULL, .TEST_PULL, .READY],
          by rw [ht]; decide⟩, by rw [ht]; decide, ?_⟩
        intro hc _ _ _ _
        exact absurd hc (by simp)
      | true =>
        cases h2 : env.pullOk METRICS_IMAGE with
        | false =>
          have ht : (MLService.boot env db).trace =
              [.stateSet .SCANNING_FOR_DOCKER, .stateSet .SCANNING_PROJECTS,
               .stateSet .DATASET_PULL, .pullImage DATASET_IMAGE,
               .stateSet .METRICS_PULL, .pullImage METRICS_IMAGE] := by
            simp [MLService.boot, MLService.prepare, hd, h1, h2]
          refine ⟨⟨[.TRAINER_PULL, .EXPORT_PULL, .TEST_PULL, .READY],
            by rw [ht]; decide⟩, by rw [ht]; decide, ?_⟩
          intro _ hc _ _ _
          exact absurd hc (by simp)
        | true =>
          cases h3 : env.pullOk TRAIN_IMAGE with
          | false =>
            have ht : (MLService.boot env db).trace =
                [.stateSet .SCANNING_FOR_DOCKER, .stateSet .SCANNING_PROJECTS,
                 .stateSet .DATASET_PULL, .pullImage DATASET_IMAGE,
                 .stateSet .METRICS_PULL, .pullImage METRICS_IMAGE,
                 .stateSet .TRAINER_PULL, .pullImage TRAIN_IMAGE] := by
              simp [MLService.boot, MLService.prepare, hd, h1, h2, h3]
            refine ⟨⟨[.EXPORT_PULL, .TEST_PULL, .READY],
              by rw [ht]; decide⟩, by rw [ht]; decide, ?_⟩
            intro _ _ hc _ _
            exact absurd hc (by simp)
          | true =>
            cases h4 : env.pullOk EXPORT_IMAGE with
            | false =>
              have ht : (MLService.boot env db).trace =
                  [.stateSet .SCANNING_FOR_DOCKER, .stateSet .SCANNING_PROJECTS,
                   .stateSet .DATASET_PULL, .pullImage DATASET_IMAGE,
                   .stateSet .METRICS_PULL, .pullImage METRICS_IMAGE,
                   .stateSet .TRAINER_PULL, .pullImage TRAIN_IMAGE,
                   .stateSet .EXPORT_PULL, .pullImage EXPORT_IMAGE] := by
                simp [MLService.boot, MLService.prepare, hd, h1, h2, h3, h4]
              refine ⟨⟨[.TEST_PULL, .READY],
                by rw [ht]; decide⟩, by rw [ht]; decide, ?_⟩
              intro _ _ _ hc _
              exact absurd hc (by simp)
            | true =>
              cases h5 : env.pullOk TEST_IMAGE with
              | false =>
                have ht : (MLService.boot env db).trace =
                    [.stateSet .SCANNING_FOR_DOCKER, .stateSet .SCANNING_PROJECTS,
                     .stateSet .DATASET_PULL, .pullImage DATASET_IMAGE,
                     .stateSet .METRICS_PULL, .pullImage METRICS_IMAGE,
                     .stateSet .TRAINER_PULL, .pullImage TRAIN_IMAGE,
                     .stateSet .EXPORT_PULL, .pullImage EXPORT_IMAGE,
                     .stateSet .TEST_PULL, .pullImage TEST_IMAGE] := by
                  simp [MLService.boot, MLService.prepare, hd, h1, h2, h3, h4, h5]
                refine ⟨⟨[.READY],
                  by rw [ht]; decide⟩, by rw [ht]; decide, ?_⟩
                intro _ _ _ _ hc
                exact absurd hc (by simp)
              | true =>
                have ht : (MLService.boot env db).trace =
                    [.stateSet .SCANNING_FOR_DOCKER, .stateSet .SCANNING_PROJECTS,
                     .stateSet .DATASET_PULL, .pullImage DATASET_IMAGE,
                     .stateSet .METRICS_PULL, .pullImage METRICS_IMAGE,
                     .stateSet .TRAINER_PULL, .pullImage TRAIN_IMAGE,
                     .stateSet .EXPORT_PULL, .pullImage EXPORT_IMAGE,
                     .stateSet .TEST_PULL, .pullImage TEST_IMAGE,
                     .stateSet .READY] := by
                  simp [MLService.boot, MLService.prepare, hd, h1, h2, h3, h4, h5]
                have hs : (MLService.boot env db).state.trainer_state = .READY := by
                  simp [MLService.boot, MLService.prepare, hd, h1, h2, h3, h4, h5]
                refine ⟨⟨[], by rw [ht]; decide⟩, by rw [ht]; decide, ?_⟩
                intro _ _ _ _ _
                exact ⟨by rw [ht]; decide, hs⟩

/-- C3 witness: a fully successful boot traverses the whole documented
state list and ends `READY`. -/
theorem boot_readiness_sequence_witness :
    stateSeq (MLService.boot envAllOk []).trace = bootStates
    ∧ (MLService.boot envAllOk []).state.trainer_state = .READY :=
  ((boot_readiness_sequence envAllOk []).2 rfl).2.2 rfl rfl rfl rfl rfl

/-- A Trainer step that completes on every input and never changes the
project's identity. -/
def stepTotal (f : ProjectData → Option ProjectData) : Prop :=
  ∀ p, ∃ q, f p = some q ∧ q.id = p.id

/-- All six Trainer steps of a run complete, preserving project identity
(the successful-run scenario of the claim). -/
def trainerEnvTotal (env : TrainerEnv) : Prop :=
  stepTotal env.writeParameterFile ∧ stepTotal env.handleOldData
  ∧ stepTotal env.moveDataToMount ∧ stepTotal env.extractDataset
  ∧ stepTotal env.trainModel
  ∧ ∀ p, ∃ q v, env.updateCheckpoints p = some (q, v) ∧ q.id = p.id

def isStatusEvent (id : String) : Event → Bool
  | .statusSet k _ => k == id
  | .stepSet k _ => k == id
  | _ => false

/-- The status and epoch writes a trace records for a given project. -/
def statusEvents (id : String) (tr : List Event) : List Event :=
  tr.filter (isStatusEvent id)

theorem runTrainerStep_total {f : ProjectData → Option ProjectData} (hf : stepTotal f)
    {st : Store} {id : String} {p : ProjectData} (hp : lookupKey st id = some p) :
    ∃ q, runTrainerStep f id st = some (setKey st id q)
      ∧ lookupKey (setKey st id q) id = some q ∧ q.id = p.id := by
  obtain ⟨q, hq, hqid⟩ := hf p
  exact ⟨q, by simp [runTrainerStep, hp, hq], lookupKey_setKey_self _ _ _, hqid⟩

/-- C2: a successful `start` on a stored project whose status record says
`NOT_TRAINING` emits exactly the status writes
`PREPARING`, `TRAINING`, `currentEpoch := 0`, `NOT_TRAINING` in that
order, returns "training complete", and persists the project record with
`containerIDs.train` cleared. -/
theorem start_success_behavior (env : TrainerEnv) (iproject : ProjectData)
    (s : ServiceState) (p : ProjectData) (r : ProjectStatus)
    (hp : lookupKey s.store iproject.id = some p)
    (hpid : p.id = iproject.id)
    (hr : lookupKey s.status p.id = some r)
    (hr0 : r.trainingStatus = .NOT_TRAINING)
    (henv : trainerEnvTotal env) :
    (MLService.start env iproject s).result = .ok "training complete"
    ∧ statusEvents p.id (MLService.start env iproject s).trace =
        [.statusSet p.id .PREPARING, .statusSet p.id .TRAINING,
         .stepSet p.id 0, .statusSet p.id .NOT_TRAINING]
    ∧ ∃ q, lookupKey (MLService.start env iproject s).state.store p.id = some q
        ∧ q.containerIDs.train = none ∧ q.id = p.id := by
  obtain ⟨hwpf, hhod, hmdm, hed, htm, huc⟩ := henv
  have hp' : lookupKey s.store p.id = some p := by rw [hpid]; exact hp
  -- status-table updates all hit the record seeded for `p.id`
  have hu1 : updateField s.status p.id
      (fun x => { x with lastEpoch := p.hyperparameters.epochs }) =
      some (setKey s.status p.id ⟨r.trainingStatus, r.currentEpoch, p.hyperparameters.epochs⟩) := by
    simp [updateField, hr]
  set st1 := setKey s.status p.id ⟨r.trainingStatus, r.currentEpoch, p.hyperparameters.epochs⟩ with hst1
  have hr1 : lookupKey st1 p.id
      = some ⟨r.trainingStatus, r.currentEpoch, p.hyperparameters.epochs⟩ := lookupKey_setKey_self _ _ _
  have hu2 : updateField st1 p.id (fun x => { x with trainingStatus := .PREPARING }) =
      some (setKey st1 p.id ⟨.PREPARING, r.currentEpoch, p.hyperparameters.epochs⟩) := by
    simp [updateField, hr1]
  set st2 := setKey st1 p.id ⟨.PREPARING, r.currentEpoch, p.hyperparameters.epochs⟩ with hst2
  have hr2 : lookupKey st2 p.id
      = some ⟨.PREPARING, r.currentEpoch, p.hyperparameters.epochs⟩ := lookupKey_setKey_self _ _ _
  have hu3 : updateField st2 p.id (fun x => { x with trainingStatus := .TRAINING }) =
      some (setKey st2 p.id ⟨.TRAINING, r.currentEpoch, p.hyperparameters.epochs⟩) := by
    simp [updateField, hr2]
  set st3 := setKey st2 p.id ⟨.TRAINING, r.currentEpoch, p.hyperparameters.epochs⟩ with hst3
  have hr3 : lookupKey st3 p.id
      = some ⟨.TRAINING, r.currentEpoch, p.hyperparameters.epochs⟩ := lookupKey_setKey_self _ _ _
  have hu4 : updateField st3 p.id (fun x => { x with currentEpoch := 0 }) =
      some (setKey st3 p.id ⟨.TRAINING, 0, p.hyperparameters.epochs⟩) := by
    simp [updateField, hr3]
  set st4 := setKey st3 p.id ⟨.TRAINING, 0, p.hyperparameters.epochs⟩ with hst4
  have hr4 : lookupKey st4 p.id
      = some ⟨.TRAINING, 0, p.hyperparameters.epochs⟩ := lookupKey_setKey_self _ _ _
  have hu5 : updateField st4 p.id (fun x => { x with trainingStatus := .NOT_TRAINING }) =
      some (setKey st4 p.id ⟨.NOT_TRAINING, 0, p.hyperparameters.epochs⟩) := by
    simp [updateField, hr4]
  -- the six Trainer steps thread the store entry for `p.id`
  obtain ⟨q1, hq1, hl1, hid1⟩ := runTrainerStep_total hwpf hp'
  obtain ⟨q2, hq2, hl2, hid2⟩ := runTrainerStep_total hhod hl1
  obtain ⟨q3, hq3, hl3, hid3⟩ := runTrainerStep_total hmdm hl2
  obtain ⟨q4, hq4, hl4, hid4⟩ := runTrainerStep_total hed hl3
  obtain ⟨q5, hq5, hl5, hid5⟩ := runTrainerStep_total htm hl4
  obtain ⟨p6, v, hp6, hid6⟩ := huc q5
  have hfinid : p6.id = p.id := by rw [hid6, hid5, hid4, hid3, hid2, hid1]
  refine ⟨?_, ?_, ?_⟩
  · simp [MLService.start, hp, hu1, hu2, hu3, hu4, hu5, hq1, hq2, hq3, hq4, hq5, hl5, hp6]
  · simp [MLService.start, hp, hu1, hu2, hu3, hu4, hu5, hq1, hq2, hq3, hq4, hq5, hl5, hp6,
      statusEvents, isStatusEvent]
  · refine ⟨{ p6 with containerIDs := { p6.containerIDs with train := none } }, ?_, rfl, hfinid⟩
    simp only [MLService.start, hp, hu1, hu2, hu3, hu4, hu5, hq1, hq2, hq3, hq4, hq5, hl5, hp6]
    simp only [lookupKey_setKey_self, Option.getD_some]
    rw [show ({ p6 with containerIDs := { p6.containerIDs with train := none } } : ProjectData).id
        = p.id from hfinid]
    exact lookupKey_setKey_self _ _ _

/-- An idle project (no live training container). -/
def projIdle : ProjectData :=
  { id := "p1", hyperparameters := ⟨50⟩, containerIDs := ⟨none⟩, directory := "/p1",
    checkpoints := [], exports := [], videos := [], tests := [] }

/-- A ready service state with the idle project `p1` seeded
`NOT_TRAINING`. -/
def exIdle : ServiceState :=
  { trainer_state := .READY, status := [("p1", ⟨.NOT_TRAINING, 0, 50⟩)],
    store := [("p1", projIdle)] }

/-- C2 witness: a full successful start on idle `p1` (epoch target 50)
returns "training complete", writes the documented status sequence, and
persists the record with the handle cleared. -/
theorem start_success_behavior_witness :
    (MLService.start envReport5 projIdle exIdle).result = .ok "training complete"
    ∧ statusEvents "p1" (MLService.start envReport5 projIdle exIdle).trace =
        [.statusSet "p1" .PREPARING, .statusSet "p1" .TRAINING,
         .stepSet "p1" 0, .statusSet "p1" .NOT_TRAINING]
    ∧ ∃ q, lookupKey (MLService.start envReport5 projIdle exIdle).state.store "p1" = some q
        ∧ q.containerIDs.train = none ∧ q.id = "p1" := by
  have htot : trainerEnvTotal envReport5 :=
    ⟨fun p => ⟨p, rfl, rfl⟩, fun p => ⟨p, rfl, rfl⟩, fun p => ⟨p, rfl, rfl⟩,
     fun p => ⟨p, rfl, rfl⟩, fun p => ⟨p, rfl, rfl⟩, fun p => ⟨p, some 5, rfl, rfl⟩⟩
  exact start_success_behavior envReport5 projIdle exIdle projIdle ⟨.NOT_TRAINING, 0, 50⟩
    (by decide) rfl (by decide) rfl htot

/-- `occursBeforeB a b tr` holds when some occurrence of `a` in `tr` is
strictly followed by an occurrence of `b`. -/
def occursBeforeB (a c : Event) : List Event → Bool
  | [] => false
  | e :: rest => (e == a && rest.contains c) || occursBeforeB a c rest

/-- C7: in every export run on an existing checkpoint, the in-use mark is
set before the conversion container runs, is cleared only after the export
record is persisted, and if any step between setting and clearing fails,
the error is surfaced, the clearing call is never made and the checkpoint
stays marked in use; a fully successful run ends with the mark cleared. -/
theorem export_in_use_guard (env : ExporterEnv) (id : String) (n : Nat) (name : String)
    (s : ServiceState) (p : ProjectData) (b : Bool)
    (hp : lookupKey s.store id = some p) (hc : lookupKey p.checkpoints n = some b) :
    ((MLService.exportPipeline env id n name s).trace.contains .runExportContainer = true →
      occursBeforeB (.markSet true) .runExportContainer
        (MLService.exportPipeline env id n name s).trace = true)
    ∧ ((MLService.exportPipeline env id n name s).trace.contains (.markSet false) = true →
      occursBeforeB .exportSaved (.markSet false)
        (MLService.exportPipeline env id n name s).trace = true)
    ∧ (env.createExportOk = true → env.createDestinationDirectoryOk = true →
       env.updateCheckpointStatusOk true = true →
       (env.writeParameterFileOk = false ∨ env.exportCheckpointOk = false ∨
        env.saveExportOk = false) →
       (∃ msg, (MLService.exportPipeline env id n name s).result = .rejected msg)
       ∧ (MLService.exportPipeline env id n name s).trace.contains (.markSet false) = false
       ∧ checkpointInUse (MLService.exportPipeline env id n name s).state id n = some true)
    ∧ (env.createExportOk = true → env.createDestinationDirectoryOk = true →
       env.updateCheckpointStatusOk true = true → env.writeParameterFileOk = true →
       env.exportCheckpointOk = true → env.saveExportOk = true →
       env.updateCheckpointStatusOk false = true →
       (MLService.exportPipeline env id n name s).result = .ok "exported"
       ∧ checkpointInUse (MLService.exportPipeline env id n name s).state id n = some false) := by
  have hmark : checkpointInUse (markCheckpoint s id n true) id n = some true := by
    simp [markCheckpoint, checkpointInUse, hp]
  cases h1 : env.createExportOk with
  | false =>
    have ht : (MLService.exportPipeline env id n name s).trace =
        [.exporterStep "locateCheckpoint"] := by
      simp [MLService.exportPipeline, hp, hc, h1]
    refine ⟨?_, ?_, ?_, ?_⟩
    · intro hcon; rw [ht] at hcon; exact absurd hcon (by decide)
    · intro hcon; rw [ht] at hcon; exact absurd hcon (by decide)
    · intro hc1 _ _ _; exact absurd hc1 (by simp)
    · intro hc1 _ _ _ _ _ _; exact absurd hc1 (by simp)
  | true =>
    cases h2 : env.createDestinationDirectoryOk with
    | false =>
      have ht : (MLService.exportPipeline env id n name s).trace =
          [.exporterStep "locateCheckpoint", .exporterStep "createExport"] := by
        simp [MLService.exportPipeline, hp, hc, h1, h2]
      refine ⟨?_, ?_, ?_, ?_⟩
      · intro hcon; rw [ht] at hcon; exact absurd hcon (by decide)
      · intro hcon; rw [ht] at hcon; exact absurd hcon (by decide)
      · intro _ hc2 _ _; exact absurd hc2 (by simp)
      · intro _ hc2 _ _ _ _ _; exact absurd hc2 (by simp)
    | true =>
      cases hm1 : env.updateCheckpointStatusOk true with
      | false =>
        have ht : (MLService.exportPipeline env id n name s).trace =
            [.exporterStep "locateCheckpoint", .exporterStep "createExport",
             .exporterStep "createDestinationDirectory"] := by
          simp [MLService.exportPipeline, hp, hc, h1, h2, hm1]
        refine ⟨?_, ?_, ?_, ?_⟩
        · intro hcon; rw [ht] at hcon; exact absurd hcon (by decide)
        · intro hcon; rw [ht] at hcon; exact absurd hcon (by decide)
        · intro _ _ hc3 _; exact absurd hc3 (by simp)
        · intro _ _ hc3 _ _ _ _; exact absurd hc3 (by simp)
      | true =>
        cases h3 : env.writeParameterFileOk with
        | false =>
          have ht : (MLService.exportPipeline env id n name s).trace =
              [.exporterStep "locateCheckpoint", .exporterStep "createExport",
               .exporterStep "createDestinationDirectory", .markSet true] := by
            simp [MLService.exportPipeline, hp, hc, h1, h2, hm1, h3]
          have hres : (MLService.exportPipeline env id n name s).result =
              .rejected "writeParameterFile failed" := by
            simp [MLService.exportPipeline, hp, hc, h1, h2, hm1, h3]
          have hst : (MLService.exportPipeline env id n name s).state =
              markCheckpoint s id n true := by
            simp [MLService.exportPipeline, hp, hc, h1, h2, hm1, h3]
          refine ⟨?_, ?_, ?_, ?_⟩
          · intro hcon; rw [ht] at hcon; exact absurd hcon (by decide)
          · intro hcon; rw [ht] at hcon; exact absurd hcon (by decide)
          · intro _ _ _ _
            exact ⟨⟨_, hres⟩, by rw [ht]; decide, by rw [hst]; exact hmark⟩
          · intro _ _ _ hc4 _ _ _; exact absurd hc4 (by simp)
        | true =>
          cases h4 : env.exportCheckpointOk with
          | false =>
            have ht : (MLService.exportPipeline env id n name s).trace =
                [.exporterStep "locateCheckpoint", .exporterStep "createExport",
                 .exporterStep "createDestinationDirectory", .markSet true,
                 .exporterStep "writeParameterFile"] := by
              simp [MLService.exportPipeline, hp, hc, h1, h2, hm1, h3, h4]
            have hres : (MLService.exportPipeline env id n name s).result =
                .rejected "exportCheckpoint failed" := by
              simp [MLService.exportPipeline, hp, hc, h1, h2, hm1, h3, h4]
            have hst : (MLService.exportPipeline env id n name s).state =
                markCheckpoint s id n true := by
              simp [MLService.exportPipeline, hp, hc, h1, h2, hm1, h3, h4]
            refine ⟨?_, ?_, ?_, ?_⟩
            · intro hcon; rw [ht] at hcon; exact absurd hcon (by decide)
            · intro hcon; rw [ht] at hcon; exact absurd hcon (by decide)
            · intro _ _ _ _
              exact ⟨⟨_, hres⟩, by rw [ht]; decide, by rw [hst]; exact hmark⟩
            · intro _ _ _ _ hc5 _ _; exact absurd hc5 (by simp)
          | true =>
            cases h5 : env.saveExportOk with
            | false =>
              have ht : (MLService.exportPipeline env id n name s).trace =
                  [.exporterStep "locateCheckpoint", .exporterStep "createExport",
                   .exporterStep "createDestinationDirectory", .markSet true,
                   .exporterStep "writeParameterFile", .runExportContainer] := by
                simp [MLService.exportPipeline, hp, hc, h1, h2, hm1, h3, h4, h5]
              have hres : (MLService.exportPipeline env id n name s).result =
                  .rejected "saveExport failed" := by
                simp [MLService.exportPipeline, hp, hc, h1, h2, hm1, h3, h4, h5]
              have hst : (MLService.exportPipeline env id n name s).state =
                  markCheckpoint s id n true := by
                simp [MLService.exportPipeline, hp, hc, h1, h2, hm1, h3, h4, h5]
              refine ⟨?_, ?_, ?_, ?_⟩
              · intro _; rw [ht]; decide
              · intro hcon; rw [ht] at hcon; exact absurd hcon (by decide)
              · intro _ _ _ _
                exact ⟨⟨_, hres⟩, by rw [ht]; decide, by rw [hst]; exact hmark⟩
              · intro _ _ _ _ _ hc6 _; exact absurd hc6 (by simp)
            | true =>
              cases hm2 : env.updateCheckpointStatusOk false with
              | false =>
                have ht : (MLService.exportPipeline env id n name s).trace =
                    [.exporterStep "locateCheckpoint", .exporterStep "createExport",
                     .exporterStep "createDestinationDirectory", .markSet true,
                     .exporterStep "writeParameterFile", .runExportContainer,
                     .exportSaved] := by
                  simp [MLService.exportPipeline, hp, hc, h1, h2, hm1, h3, h4, h5, hm2]
                refine ⟨?_, ?_, ?_, ?_⟩
                · intro _; rw [ht]; decide
                · intro hcon; rw [ht] at hcon; exact absurd hcon (by decide)
                · intro _ _ _ hdisj
                  rcases hdisj with h | h | h <;> exact absurd h (by simp)
                · intro _ _ _ _ _ _ hc7; exact absurd hc7 (by simp)
              | true =>
                have ht : (MLService.exportPipeline env id n name s).trace =
                    [.exporterStep "locateCheckpoint", .exporterStep "createExport",
                     .exporterStep "createDestinationDirectory", .markSet true,
                     .exporterStep "writeParameterFile", .runExportContainer,
                     .exportSaved, .markSet false] := by
                  simp [MLService.exportPipeline, hp, hc, h1, h2, hm1, h3, h4, h5, hm2]
                have hres : (MLService.exportPipeline env id n name s).result =
                    .ok "exported" := by
                  simp [MLService.exportPipeline, hp, hc, h1, h2, hm1, h3, h4, h5, hm2]
                have hst : (MLService.exportPipeline env id n name s).state =
                    markCheckpoint (saveExportRec (markCheckpoint s id n true) id ⟨name⟩) id n false := by
                  simp [MLService.exportPipeline, hp, hc, h1, h2, hm1, h3, h4, h5, hm2]
                have hclear : checkpointInUse
                    (markCheckpoint (saveExportRec (markCheckpoint s id n true) id ⟨name⟩) id n false)
                    id n = some false := by
                  simp [markCheckpoint, saveExportRec, checkpointInUse, hp]
                refine ⟨?_, ?_, ?_, ?_⟩
                · intro _; rw [ht]; decide
                · intro _; rw [ht]; decide
                · intro _ _ _ hdisj
                  rcases hdisj with h | h | h <;> exact absurd h (by simp)
                · intro _ _ _ _ _ _ _
                  exact ⟨hres, by rw [hst]; exact hclear⟩

/-- An Exporter environment where every step succeeds. -/
def envExportAll : ExporterEnv :=
  { createExportOk := true, createDestinationDirectoryOk := true,
    updateCheckpointStatusOk := fun _ => true, writeParameterFileOk := true,
    exportCheckpointOk := true, saveExportOk := true }

/-- A project holding checkpoint 7, not currently in use. -/
def projCkpt : ProjectData :=
  { id := "p1", hyperparameters := ⟨50⟩, containerIDs := ⟨none⟩, directory := "/p1",
    checkpoints := [(7, false)], exports := [], videos := [], tests := [] }

/-- A ready state with the checkpoint-bearing project `p1`. -/
def exCkpt : ServiceState :=
  { trainer_state := .READY, status := [("p1", ⟨.NOT_TRAINING, 0, 50⟩)],
    store := [("p1", projCkpt)] }

/-- C7 witness: a fully successful export of checkpoint 7 returns
"exported" with the in-use mark cleared at the end. -/
theorem export_in_use_guard_witness :
    (MLService.exportPipeline envExportAll "p1" 7 "mymodel" exCkpt).result = .ok "exported"
    ∧ checkpointInUse (MLService.exportPipeline envExportAll "p1" 7 "mymodel" exCkpt).state
        "p1" 7 = some false :=
  (export_in_use_guard envExportAll "p1" 7 "mymodel" exCkpt projCkpt false
    (by decide) (by decide)).2.2.2 rfl rfl rfl rfl rfl rfl rfl

theorem mem_setKey {κ β : Type} [DecidableEq κ] {l : List (κ × β)} {k : κ} {v : β}
    {a : κ × β} (h : a ∈ setKey l k v) : a ∈ l ∨ a = (k, v) := by
  induction l with
  | nil =>
    simp [setKey] at h
    exact Or.inr h
  | cons kv rest ih =>
    by_cases hk : kv.1 = k
    · simp only [setKey, if_pos hk] at h
      rcases List.mem_cons.mp h with h1 | h2
      · exact Or.inr h1
      · exact Or.inl (List.mem_cons_of_mem _ h2)
    · simp only [setKey, if_neg hk] at h
      rcases List.mem_cons.mp h with h1 | h2
      · exact Or.inl (h1 ▸ List.mem_cons_self _ _)
      · rcases ih h2 with h3 | h3
        · exact Or.inl (List.mem_cons_of_mem _ h3)
        · exact Or.inr h3

/-- With unique keys, an element of `setKey l k v` is either the fresh
binding or an untouched binding of a different key. -/
theorem mem_setKey_nodup {β : Type} {l : List (String × β)} {k : String} {v : β}
    {a : String × β} (hnd : keysNodupB l = true) (h : a ∈ setKey l k v) :
    a = (k, v) ∨ (a ∈ l ∧ a.1 ≠ k) := by
  induction l with
  | nil =>
    simp [setKey] at h
    exact Or.inl h
  | cons kv rest ih =>
    simp only [keysNodupB, Bool.and_eq_true, List.all_eq_true] at hnd
    by_cases hk : kv.1 = k
    · simp only [setKey, if_pos hk] at h
      rcases List.mem_cons.mp h with h1 | h2
      · exact Or.inl h1
      · refine Or.inr ⟨List.mem_cons_of_mem _ h2, ?_⟩
        have hne : a.1 ≠ kv.1 := by simpa using hnd.1 a h2
        rw [hk] at hne
        exact hne
    · simp only [setKey, if_neg hk] at h
      rcases List.mem_cons.mp h with h1 | h2
      · subst h1
        exact Or.inr ⟨List.mem_cons_self _ _, hk⟩
      · rcases ih hnd.2 h2 with h3 | ⟨h4, h5⟩
        · exact Or.inl h3
        · exact Or.inr ⟨List.mem_cons_of_mem _ h4, h5⟩

theorem keysNodupB_setKey {β : Type} {l : List (String × β)} (k : String) (v : β)
    (hnd : keysNodupB l = true) : keysNodupB (setKey l k v) = true := by
  induction l with
  | nil => simp [setKey, keysNodupB]
  | cons kv rest ih =>
    simp only [keysNodupB, Bool.and_eq_true, List.all_eq_true] at hnd
    by_cases hk : kv.1 = k
    · simp only [setKey, if_pos hk, keysNodupB, Bool.and_eq_true, List.all_eq_true]
      refine ⟨?_, hnd.2⟩
      intro kv' h'
      have := hnd.1 kv' h'
      rw [← hk]
      simpa using this
    · simp only [setKey, if_neg hk, keysNodupB, Bool.and_eq_true, List.all_eq_true]
      refine ⟨?_, ih hnd.2⟩
      intro kv' h'
      rcases mem_setKey h' with h3 | h3
      · exact hnd.1 kv' h3
      · subst h3
        simpa using Ne.symm hk

/-- A successful `start` run in full: the project's status record ends at
`NOT_TRAINING`, epoch 0, with the configured epoch target, and the store
ends with the project's record replaced by one whose training-container
handle is cleared; no other key of either table is touched. -/
theorem start_total_run (env : TrainerEnv) (iproject : ProjectData) (s : ServiceState)
    (p : ProjectData) (r : ProjectStatus)
    (hp : lookupKey s.store iproject.id = some p)
    (hpid : p.id = iproject.id)
    (hr : lookupKey s.status p.id = some r)
    (henv : trainerEnvTotal env) :
    ∃ q : ProjectData, q.id = p.id ∧ q.containerIDs.train = none
      ∧ (MLService.start env iproject s).result = .ok "training complete"
      ∧ (MLService.start env iproject s).state =
          ⟨s.trainer_state,
           setKey s.status p.id ⟨.NOT_TRAINING, 0, p.hyperparameters.epochs⟩,
           setKey s.store p.id q⟩ := by
  obtain ⟨hwpf, hhod, hmdm, hed, htm, huc⟩ := henv
  have hp' : lookupKey s.store p.id = some p := by rw [hpid]; exact hp
  have hu1 : updateField s.status p.id
      (fun x => { x with lastEpoch := p.hyperparameters.epochs }) =
      some (setKey s.status p.id ⟨r.trainingStatus, r.currentEpoch, p.hyperparameters.epochs⟩) := by
    simp [updateField, hr]
  have hu2 : updateField
      (setKey s.status p.id ⟨r.trainingStatus, r.currentEpoch, p.hyperparameters.epochs⟩)
      p.id (fun x => { x with trainingStatus := .PREPARING }) =
      some (setKey s.status p.id ⟨.PREPARING, r.currentEpoch, p.hyperparameters.epochs⟩) := by
    simp [updateField, setKey_setKey]
  have hu3 : updateField
      (setKey s.status p.id ⟨.PREPARING, r.currentEpoch, p.hyperparameters.epochs⟩)
      p.id (fun x => { x with trainingStatus := .TRAINING }) =
      some (setKey s.status p.id ⟨.TRAINING, r.currentEpoch, p.hyperparameters.epochs⟩) := by
    simp [updateField, setKey_setKey]
  have hu4 : updateField
      (setKey s.status p.id ⟨.TRAINING, r.currentEpoch, p.hyperparameters.epochs⟩)
      p.id (fun x => { x with currentEpoch := 0 }) =
      some (setKey s.status p.id ⟨.TRAINING, 0, p.hyperparameters.epochs⟩) := by
    simp [updateField, setKey_setKey]
  have hu5 : updateField
      (setKey s.status p.id ⟨.TRAINING, 0, p.hyperparameters.epochs⟩)
      p.id (fun x => { x with trainingStatus := .NOT_TRAINING }) =
      some (setKey s.status p.id ⟨.NOT_TRAINING, 0, p.hyperparameters.epochs⟩) := by
    simp [updateField, setKey_setKey]
  obtain ⟨q1, hq1, hl1, hid1⟩ := runTrainerStep_total hwpf hp'
  obtain ⟨q2, hq2, hl2, hid2⟩ := runTrainerStep_total hhod hl1
  obtain ⟨q3, hq3, hl3, hid3⟩ := runTrainerStep_total hmdm hl2
  obtain ⟨q4, hq4, hl4, hid4⟩ := runTrainerStep_total hed hl3
  obtain ⟨q5, hq5, hl5, hid5⟩ := runTrainerStep_total htm hl4
  simp only [setKey_setKey] at hq2 hl2 hq3 hl3 hq4 hl4 hq5 hl5
  obtain ⟨p6, v, hp6, hid6⟩ := huc q5
  have hfinid : p6.id = p.id := by rw [hid6, hid5, hid4, hid3, hid2, hid1]
  refine ⟨{ p6 with containerIDs := { p6.containerIDs with train := none } }, hfinid, rfl, ?_, ?_⟩
  · simp [MLService.start, hp, hu1, hu2, hu3, hu4, hu5, hq1, hq2, hq3, hq4, hq5, hl5, hp6]
  · simp [MLService.start, hp, hu1, hu2, hu3, hu4, hu5, hq1, hq2, hq3, hq4, hq5, hl5, hp6,
      hfinid, setKey_setKey]

/-- C1 (amended): `pauseTraining` and `resumeTraining` preserve the
invariant (`containerIDs.train` set iff status `TRAINING`/`PAUSED`), and a
training run that completes re-establishes it — a successful `start` ends
with the project `NOT_TRAINING` and its stored handle cleared, every other
entry untouched — but `halt` does not preserve it: a successful `halt` on
a project with a live training container leaves the store — hence the
stored handle — unchanged while setting the status to `NOT_TRAINING`, so
the invariant is false afterwards. -/
theorem container_invariant_amended (env : DockerEnv) (env' : TrainerEnv) (id : String)
    (s : ServiceState) (hinv : invariantB s = true) (hwf : storeWFB s = true) :
    invariantB (MLService.pauseTraining env id s).state = true
    ∧ invariantB (MLService.resumeTraining env id s).state = true
    ∧ (∀ p c, lookupKey s.store id = some p → p.containerIDs.train = some c → c ≠ "" →
        env.killOk c = true →
        (MLService.halt env id s).result = .ok ()
        ∧ (MLService.halt env id s).state.store = s.store
        ∧ invariantB (MLService.halt env id s).state = false)
    ∧ (trainerEnvTotal env' → ∀ (iproject p' : ProjectData) (r' : ProjectStatus),
        lookupKey s.store iproject.id = some p' → p'.id = iproject.id →
        lookupKey s.status p'.id = some r' →
        (MLService.start env' iproject s).result = .ok "training complete"
        ∧ invariantB (MLService.start env' iproject s).state = true) := by
  refine ⟨?_, ?_, ?_, ?_⟩
  · -- pauseTraining preserves the invariant
    cases hl : lookupKey s.store id with
    | none => simp [MLService.pauseTraining, hl, hinv]
    | some project =>
      have hpid : project.id = id := storeWFB_id_of_lookup hwf hl
      cases hr : lookupKey s.status id with
      | none => simp [MLService.pauseTraining, hl, hr, hinv]
      | some r =>
        by_cases hps : r.trainingStatus = .PAUSED
        · simp [MLService.pauseTraining, hl, hr, hps, hinv]
        · cases htr : project.containerIDs.train with
          | none => simp [MLService.pauseTraining, hl, hr, hps, htr, hinv]
          | some c =>
            cases hpo : env.pauseOk c with
            | false => simp [MLService.pauseTraining, hl, hr, hps, htr, hpo, hinv]
            | true =>
              have hupd : updateField s.status project.id
                  (fun r' => { r' with trainingStatus := .PAUSED }) =
                  some (setKey s.status id ({ r with trainingStatus := .PAUSED })) := by
                simp [updateField, hpid, hr]
              have hstate : (MLService.pauseTraining env id s).state =
                  { s with status := setKey s.status id ({ r with trainingStatus := .PAUSED }) } := by
                simp [MLService.pauseTraining, hl, hr, hps, htr, hpo, hupd]
              rw [hstate]
              exact invariantB_setKey_active _ hinv hwf hl (by simp [htr]) (Or.inr rfl)
  · -- resumeTraining preserves the invariant
    cases hl : lookupKey s.store id with
    | none => simp [MLService.resumeTraining, hl, hinv]
    | some project =>
      have hpid : project.id = id := storeWFB_id_of_lookup hwf hl
      cases hr : lookupKey s.status id with
      | none => simp [MLService.resumeTraining, hl, hr, hinv]
      | some r =>
        by_cases hps : r.trainingStatus = .PAUSED
        · cases htr : project.containerIDs.train with
          | none => simp [MLService.resumeTraining, hl, hr, hps, htr, hinv]
          | some c =>
            cases hpo : env.resumeOk c with
            | false => simp [MLService.resumeTraining, hl, hr, hps, htr, hpo, hinv]
            | true =>
              have hupd : updateField s.status project.id
                  (fun r' => { r' with trainingStatus := .TRAINING }) =
                  some (setKey s.status id ({ r with trainingStatus := .TRAINING })) := by
                simp [updateField, hpid, hr]
              have hstate : (MLService.resumeTraining env id s).state =
                  { s with status := setKey s.status id ({ r with trainingStatus := .TRAINING }) } := by
                simp [MLService.resumeTraining, hl, hr, hps, htr, hpo, hupd]
              rw [hstate]
              exact invariantB_setKey_active _ hinv hwf hl (by simp [htr]) (Or.inl rfl)
        · simp [MLService.resumeTraining, hl, hr, hps, hinv]
  · -- halt with a live container succeeds but breaks the invariant
    intro p c hp htrain hc hkill
    have hpid : p.id = id := storeWFB_id_of_lookup hwf hp
    have hmem : (id, p) ∈ s.store := lookupKey_mem hp
    have hact : statusActiveB s.status id = true := by
      have h2 := List.all_eq_true.mp (by unfold invariantB at hinv; exact hinv) (id, p) hmem
      rw [htrain] at h2
      simpa using h2
    obtain ⟨r, hr, -⟩ : ∃ r, lookupKey s.status id = some r ∧
        (r.trainingStatus = .TRAINING ∨ r.trainingStatus = .PAUSED) := by
      unfold statusActiveB at hact
      cases hr : lookupKey s.status id with
      | none => rw [hr] at hact; simp at hact
      | some r =>
        rw [hr] at hact
        simp only [Bool.or_eq_true, beq_iff_eq] at hact
        exact ⟨r, rfl, hact⟩
    have hupd : updateField s.status p.id
        (fun r' => { r' with trainingStatus := .NOT_TRAINING }) =
        some (setKey s.status id ({ r with trainingStatus := .NOT_TRAINING })) := by
      simp [updateField, hpid, hr]
    have hrun : MLService.halt env id s =
        ⟨.ok (), { s with status := setKey s.status id ({ r with trainingStatus := .NOT_TRAINING }) },
         [.killContainer c, .statusSet p.id .NOT_TRAINING]⟩ := by
      simp [MLService.halt, hp, htrain, hc, hkill, hupd]
    refine ⟨by rw [hrun], by rw [hrun], ?_⟩
    rw [hrun]
    cases hall : invariantB { s with status := setKey s.status id ({ r with trainingStatus := .NOT_TRAINING }) } with
    | false => rfl
    | true =>
      exfalso
      have := List.all_eq_true.mp (by unfold invariantB at hall; exact hall) (id, p) hmem
      simp only [htrain, Option.isSome_some] at this
      have hfalse : statusActiveB (setKey s.status id ({ r with trainingStatus := .NOT_TRAINING })) id = false := by
        unfold statusActiveB
        rw [lookupKey_setKey_self]
        rfl
      rw [hfalse] at this
      simp at this
  · -- a completed start re-establishes the invariant
    intro htot iproject p' r' hp hpidd hr'
    obtain ⟨q, hqid, hqtr, hres, hstat⟩ := start_total_run env' iproject s p' r' hp hpidd hr' htot
    refine ⟨hres, ?_⟩
    rw [hstat]
    unfold invariantB
    rw [List.all_eq_true]
    intro kv hkv
    rcases mem_setKey_nodup (storeWFB_nodup hwf) hkv with heq | ⟨hin, hne⟩
    · subst heq
      simp [statusActiveB, hqtr]
    · have hsame : statusActiveB
          (setKey s.status p'.id ⟨.NOT_TRAINING, 0, p'.hyperparameters.epochs⟩) kv.1
          = statusActiveB s.status kv.1 := by
        unfold statusActiveB
        rw [lookupKey_setKey_ne _ _ _ _ hne]
      rw [hsame]
      exact List.all_eq_true.mp (by unfold invariantB at hinv; exact hinv) kv hin

/-- C1 witness: at a concrete training state, `pauseTraining` keeps the
invariant, a successful `halt` falsifies it, and a completed `start`
re-establishes it. -/
theorem container_invariant_amended_witness :
    invariantB (MLService.pauseTraining envAllOk "p1" exTraining).state = true
    ∧ (MLService.halt envAllOk "p1" exTraining).result = .ok ()
    ∧ invariantB (MLService.halt envAllOk "p1" exTraining).state = false
    ∧ (MLService.start envReport5 projTraining exTraining).result = .ok "training complete"
    ∧ invariantB (MLService.start envReport5 projTraining exTraining).state = true := by
  have htot : trainerEnvTotal envReport5 :=
    ⟨fun p => ⟨p, rfl, rfl⟩, fun p => ⟨p, rfl, rfl⟩, fun p => ⟨p, rfl, rfl⟩,
     fun p => ⟨p, rfl, rfl⟩, fun p => ⟨p, rfl, rfl⟩, fun p => ⟨p, some 5, rfl, rfl⟩⟩
  have h := container_invariant_amended envAllOk envReport5 "p1" exTraining (by decide) (by decide)
  have h3 := h.2.2.1 projTraining "c1" (by decide) (by decide) (by decide) rfl
  have h4 := h.2.2.2 htot projTraining projTraining ⟨.TRAINING, 3, 50⟩ (by decide) rfl (by decide)
  exact ⟨h.1, h3.1, h3.2.2, h4.1, h4.2⟩
